import Mathlib

/-
Verification of the CVE matching and scoring engine of the
cisco-microtool-generator repository.

The definitions below are a shallow embedding of the Python sources
src/services/cve_engine.py, src/services/profile_service.py,
src/models/cve_model.py and src/models/security_score.py.

Modelling conventions:
- Python strings are Lean String values; character-level work happens on
  the underlying List Char.  String predicates (isdigit, strip, lower)
  are modelled with their ASCII semantics, which is what every input in
  the repository's data set uses.
- Python floats are modelled as rationals; every numeric constant of the
  scorer (25, 15, 8, 3, 1.5, 0.7, 1.2) and every value manipulated by the
  claims is exactly representable, so rational arithmetic agrees with the
  float arithmetic of the source on all inputs considered here.
- Python round is round-half-to-even, modelled by pyRoundQ below.
- Fallible provider loads are modelled as Except values; an exception in
  provider.load corresponds to an Except.error input.
- datetime.now-relative date parsing inside _cve_age_days is abstracted
  as an explicit parameter ageOf assigning an optional age in days to a
  published string; all scoring theorems are quantified over it.
-/

-- ---------------------------------------------------------------
-- Character and list utilities (Python string primitives)
-- ---------------------------------------------------------------

/-- Whitespace set of Python str.strip for ASCII input. -/
def pyIsSpace (c : Char) : Bool :=
  c == ' ' || c == '\t' || c == '\n' || c == '\r' ||
  c == Char.ofNat 11 || c == Char.ofNat 12

/-- Python str.strip: drop whitespace from both ends. -/
def pyStrip (l : List Char) : List Char :=
  ((l.dropWhile pyIsSpace).reverse.dropWhile pyIsSpace).reverse

/-- Python str.strip with a dot argument: drop dots from both ends. -/
def stripDots (l : List Char) : List Char :=
  ((l.dropWhile (· == '.')).reverse.dropWhile (· == '.')).reverse

/-- Python str.lower on a character, ASCII semantics. -/
def pyToLower (c : Char) : Char := c.toLower

/-- Python str.lower on a string. -/
def lowerStr (s : String) : String := ⟨s.data.map pyToLower⟩

/-- Value of a (possibly empty) string of decimal digits; the empty list
gives 0, matching the int conversion with a ValueError defaulting to 0 in
_tokenize_version. -/
def digitsToNat (l : List Char) : Nat :=
  l.foldl (fun a c => a * 10 + (c.toNat - 48)) 0

/-- Python str.split with separator dot, on the character list. -/
def splitOnDot : List Char → List (List Char)
  | [] => [[]]
  | c :: cs =>
    if c == '.' then [] :: splitOnDot cs
    else
      match splitOnDot cs with
      | [] => [[c]]
      | h :: t => (c :: h) :: t

/-- Right-pad a list of numbers with zeros until it has 3 entries,
modelling the while-append loop of _tokenize_version. -/
def padTo3 (l : List Nat) : List Nat := l ++ List.replicate (3 - l.length) 0

/-- Right-pad a list of numbers with zeros to the requested length,
modelling tuple concatenation with a replicated zero tuple. -/
def padTo (l : List Nat) (n : Nat) : List Nat := l ++ List.replicate (n - l.length) 0

-- ---------------------------------------------------------------
-- Version parsing and comparison (src/services/cve_engine.py 18-60)
-- ---------------------------------------------------------------

/-- Embedding of _tokenize_version: strip whitespace, keep the leading
run of digits and dots, strip dots from both ends, split on dots, parse
each segment (empty segment gives 0), pad to at least 3 components. -/
def _tokenize_version (v : String) : List Nat :=
  let v := pyStrip v.data
  if v.isEmpty then [0]
  else
    let cleaned := v.takeWhile fun c => c.isDigit || c == '.'
    let s := stripDots cleaned
    if s.isEmpty then [0]
    else padTo3 ((splitOnDot s).map digitsToNat)

/-- Python tuple comparison on equal-or-unequal length Nat tuples:
lexicographic, a strict prefix is smaller. -/
def cmpTuple : List Nat → List Nat → Int
  | [], [] => 0
  | [], _ :: _ => -1
  | _ :: _, [] => 1
  | a :: as, b :: bs => if a < b then -1 else if b < a then 1 else cmpTuple as bs

/-- Embedding of compare_versions: tokenize both sides, pad to equal
length with zeros, compare as tuples. -/
def compare_versions (a b : String) : Int :=
  let ta := _tokenize_version a
  let tb := _tokenize_version b
  let max_len := max ta.length tb.length
  cmpTuple (padTo ta max_len) (padTo tb max_len)

-- ---------------------------------------------------------------
-- Platform matching (src/services/cve_engine.py 66-92)
-- ---------------------------------------------------------------

/-- Embedding of normalize_platform: strip and lowercase (on the
character list of the string). -/
def normalize_platform (p : String) : List Char :=
  (pyStrip p.data).map pyToLower

/-- Decide whether needle occurs as a contiguous substring of the head
of hay, modelling Python str startswith used by substring search. -/
def isPrefixOfL : List Char → List Char → Bool
  | [], _ => true
  | _ :: _, [] => false
  | a :: as, b :: bs => a == b && isPrefixOfL as bs

/-- Python substring containment (the in operator on str): needle occurs
contiguously somewhere in hay. -/
def isSubstr (needle hay : List Char) : Bool :=
  match hay with
  | [] => isPrefixOfL needle []
  | _ :: t => isPrefixOfL needle hay || isSubstr needle t

/-- Normalized characters of the wildcard family name. -/
def iosxeChars : List Char := ['i', 'o', 's', ' ', 'x', 'e']

/-- Embedding of platform_matches.  Note that the second wildcard test
of the source is Python list membership (an exact-equality test against
each normalized entry), not a substring search inside the entries. -/
def platform_matches (query_platform : String) (cve_platforms : List String) : Bool :=
  let qp := normalize_platform query_platform
  if qp.isEmpty then false
  else
    let norm_list := cve_platforms.map normalize_platform
    if isSubstr iosxeChars qp then true
    else if norm_list.contains iosxeChars then true
    else norm_list.any fun cp =>
      !cp.isEmpty && (qp == cp || isSubstr qp cp || isSubstr cp qp)

-- ---------------------------------------------------------------
-- Helper lemmas about cmpTuple
-- ---------------------------------------------------------------

lemma cmpTuple_self (l : List Nat) : cmpTuple l l = 0 := by
  induction l with
  | nil => rfl
  | cons a as ih => simp [cmpTuple, ih]

lemma cmpTuple_antisym (a b : List Nat) : cmpTuple a b = -cmpTuple b a := by
  induction a generalizing b with
  | nil => cases b <;> simp [cmpTuple]
  | cons x xs ih =>
    cases b with
    | nil => simp [cmpTuple]
    | cons y ys =>
      by_cases hxy : x < y
      · have : ¬ y < x := by omega
        simp [cmpTuple, hxy, this]
      · by_cases hyx : y < x
        · simp [cmpTuple, hxy, hyx]
        · simp [cmpTuple, hxy, hyx, ih ys]

/-- C8 groundwork: reflexivity of version comparison. -/
lemma compare_versions_self (a : String) : compare_versions a a = 0 := by
  unfold compare_versions
  simp [cmpTuple_self]

/-- C8 groundwork: antisymmetry of version comparison. -/
lemma compare_versions_antisym (a b : String) :
    compare_versions a b = -compare_versions b a := by
  show cmpTuple _ _ = -cmpTuple _ _
  rw [Nat.max_comm (_tokenize_version b).length (_tokenize_version a).length]
  exact cmpTuple_antisym _ _

-- ---------------------------------------------------------------
-- A zero-extension view of tuple comparison, used to derive
-- transitivity of compare_versions
-- ---------------------------------------------------------------

/-- Comparison of Nat tuples in which a missing entry counts as zero;
this is the padding-free counterpart of the pad-to-max comparison done
by compare_versions. -/
def cmpZ : List Nat → List Nat → Int
  | [], [] => 0
  | [], b :: bs => if 0 < b then -1 else cmpZ [] bs
  | a :: as, [] => if 0 < a then 1 else cmpZ as []
  | a :: as, b :: bs => if a < b then -1 else if b < a then 1 else cmpZ as bs

lemma cmpZ_nil_le (l : List Nat) : cmpZ [] l ≤ 0 := by
  induction l with
  | nil => simp [cmpZ]
  | cons b bs ih =>
    by_cases h : 0 < b <;> simp [cmpZ, h, ih]

lemma cmpZ_nil_ge (l : List Nat) : 0 ≤ cmpZ l [] := by
  induction l with
  | nil => simp [cmpZ]
  | cons a as ih =>
    by_cases h : 0 < a <;> simp [cmpZ, h, ih]

/-- Padding both tuples with zeros to a common length does not change
the comparison: the padded tuple comparison of the source equals cmpZ. -/
lemma cmpTuple_padTo_eq_cmpZ :
    ∀ (m : Nat) (a b : List Nat), a.length ≤ m → b.length ≤ m →
      cmpTuple (padTo a m) (padTo b m) = cmpZ a b := by
  intro m
  induction m with
  | zero =>
    intro a b ha hb
    have ha0 : a = [] := List.eq_nil_of_length_eq_zero (Nat.le_zero.mp ha)
    have hb0 : b = [] := List.eq_nil_of_length_eq_zero (Nat.le_zero.mp hb)
    subst ha0; subst hb0
    simp [padTo, cmpTuple, cmpZ]
  | succ k ih =>
    intro a b ha hb
    cases a with
    | nil =>
      cases b with
      | nil => simp [padTo, cmpTuple_self, cmpZ]
      | cons y ys =>
        have hys : ys.length ≤ k := by simpa using hb
        have hpad : padTo (y :: ys) (k + 1) = y :: padTo ys k := by
          simp [padTo, List.length_cons]
        have hnil : padTo ([] : List Nat) (k + 1) = 0 :: padTo ([] : List Nat) k := by
          simp [padTo, List.replicate_succ]
        rw [hpad, hnil]
        by_cases hy : 0 < y
        · simp [cmpTuple, cmpZ, hy, Nat.not_lt_zero]
        · have hy0 : y = 0 := by omega
          subst hy0
          simp only [cmpTuple, cmpZ, Nat.lt_irrefl, if_false]
          simpa using ih [] ys (by simp) hys
    | cons x xs =>
      have hxs : xs.length ≤ k := by simpa using ha
      have hpadx : padTo (x :: xs) (k + 1) = x :: padTo xs k := by
        simp [padTo, List.length_cons]
      cases b with
      | nil =>
        have hnil : padTo ([] : List Nat) (k + 1) = 0 :: padTo ([] : List Nat) k := by
          simp [padTo, List.replicate_succ]
        rw [hpadx, hnil]
        by_cases hx : 0 < x
        · simp [cmpTuple, cmpZ, hx, Nat.not_lt_zero]
        · have hx0 : x = 0 := by omega
          subst hx0
          simp only [cmpTuple, cmpZ, Nat.lt_irrefl, if_false]
          simpa using ih xs [] hxs (by simp)
      | cons y ys =>
        have hys : ys.length ≤ k := by simpa using hb
        have hpady : padTo (y :: ys) (k + 1) = y :: padTo ys k := by
          simp [padTo, List.length_cons]
        rw [hpadx, hpady]
        by_cases hxy : x < y
        · simp [cmpTuple, cmpZ, hxy]
        · by_cases hyx : y < x
          · simp [cmpTuple, cmpZ, hxy, hyx]
          · simp only [cmpTuple, cmpZ, hxy, hyx, if_false]
            exact ih xs ys hxs hys

/-- compare_versions computes the zero-extension comparison of the two
token tuples. -/
lemma compare_versions_eq_cmpZ (a b : String) :
    compare_versions a b = cmpZ (_tokenize_version a) (_tokenize_version b) := by
  show cmpTuple _ _ = _
  exact cmpTuple_padTo_eq_cmpZ _ _ _ (Nat.le_max_left _ _) (Nat.le_max_right _ _)

/-- Transitivity of the nonpositive side of cmpZ. -/
lemma cmpZ_trans_nonpos :
    ∀ (a b c : List Nat), cmpZ a b ≤ 0 → cmpZ b c ≤ 0 → cmpZ a c ≤ 0 := by
  intro a
  induction a with
  | nil => intro b c _ _; exact cmpZ_nil_le c
  | cons x xs ih =>
    intro b c h1 h2
    cases b with
    | nil =>
      have hx : ¬ 0 < x := by
        intro hx
        rw [show cmpZ (x :: xs) [] = 1 from by simp [cmpZ, hx]] at h1
        omega
      have hx0 : x = 0 := by omega
      have h1' : cmpZ xs [] ≤ 0 := by
        rw [show cmpZ (x :: xs) [] = cmpZ xs [] from by simp [cmpZ, hx]] at h1
        exact h1
      subst hx0
      cases c with
      | nil => simpa [cmpZ] using h1'
      | cons z cs =>
        by_cases hz : 0 < z
        · simp [cmpZ, hz]
        · have hz0 : z = 0 := by omega
          subst hz0
          have h2' : cmpZ [] cs ≤ 0 := cmpZ_nil_le cs
          simp only [cmpZ, Nat.lt_irrefl, if_false]
          exact ih [] cs h1' h2'
    | cons y bs =>
      cases c with
      | nil =>
        have hy : ¬ 0 < y := by
          intro hy
          rw [show cmpZ (y :: bs) [] = 1 from by simp [cmpZ, hy]] at h2
          omega
        have hy0 : y = 0 := by omega
        subst hy0
        have h2' : cmpZ bs [] ≤ 0 := by
          simpa [cmpZ] using h2
        have hx : ¬ x < 0 := Nat.not_lt_zero x
        by_cases hx0 : 0 < x
        · exfalso
          rw [show cmpZ (x :: xs) (0 :: bs) = 1 from by simp [cmpZ]; omega] at h1
          omega
        · have hx00 : x = 0 := by omega
          subst hx00
          have h1' : cmpZ xs bs ≤ 0 := by
            simpa [cmpZ] using h1
          simp only [cmpZ, Nat.lt_irrefl, if_false]
          exact ih bs [] h1' h2'
      | cons z cs =>
        by_cases hxy : x < y
        · by_cases hyz : y < z
          · have : x < z := by omega
            simp [cmpZ, this]
          · by_cases hzy : z < y
            · exfalso
              rw [show cmpZ (y :: bs) (z :: cs) = 1 from by simp [cmpZ, hzy]; omega] at h2
              omega
            · have hyz0 : y = z := by omega
              have : x < z := by omega
              simp [cmpZ, this]
        · by_cases hyx : y < x
          · exfalso
            rw [show cmpZ (x :: xs) (y :: bs) = 1 from by simp [cmpZ, hxy, hyx]] at h1
            omega
          · have hxy0 : x = y := by omega
            subst hxy0
            have h1' : cmpZ xs bs ≤ 0 := by
              simpa [cmpZ] using h1
            by_cases hyz : x < z
            · simp [cmpZ, hyz]
            · by_cases hzy : z < x
              · exfalso
                rw [show cmpZ (x :: bs) (z :: cs) = 1 from by simp [cmpZ, hzy]; omega] at h2
                omega
              · have h2' : cmpZ bs cs ≤ 0 := by
                  simpa [cmpZ, hyz, hzy] using h2
                simp only [cmpZ, hyz, hzy, if_false]
                exact ih bs cs h1' h2'

/-- Transitivity of the nonpositive side of compare_versions. -/
lemma compare_versions_trans_nonpos (a b c : String)
    (h1 : compare_versions a b ≤ 0) (h2 : compare_versions b c ≤ 0) :
    compare_versions a c ≤ 0 := by
  rw [compare_versions_eq_cmpZ] at h1 h2 ⊢
  exact cmpZ_trans_nonpos _ _ _ h1 h2

-- ---------------------------------------------------------------
-- Data model (src/models/cve_model.py)
-- ---------------------------------------------------------------

/-- Embedding of CVEAffectedRange. -/
structure CVEAffectedRange where
  min : String
  max : String
deriving DecidableEq

/-- Embedding of CVEEntry.  Optional float fields are optional
rationals; optional strings are Option String. -/
structure CVEEntry where
  cve_id : String
  title : String
  severity : String
  platforms : List String
  affected : CVEAffectedRange
  fixed_in : Option String
  tags : List String
  description : String
  workaround : Option String
  advisory_url : Option String
  confidence : String
  source : Option String
  cvss_score : Option ℚ
  cvss_vector : Option String
  cwe : Option String
  published : Option String
  last_modified : Option String
  references : List String
deriving DecidableEq

-- ---------------------------------------------------------------
-- Merge strategy (src/services/cve_engine.py 162-216)
-- ---------------------------------------------------------------

/-- Python emptiness test value in (None, empty string, empty list) for
an optional string field. -/
def optStrIsEmptyPy : Option String → Bool
  | none => true
  | some s => s == ""

/-- Fill rule of _merge_entries for an optional string field: take the
patch value only when the base value is absent or empty and the patch
value is present and nonempty. -/
def fillStrOpt (b p : Option String) : Option String :=
  if optStrIsEmptyPy b && !optStrIsEmptyPy p then p else b

/-- Fill rule of _merge_entries for a required string field. -/
def fillStrReq (b p : String) : String :=
  if (b == "") && !(p == "") then p else b

/-- Fill rule of _merge_entries for the optional numeric score: a float
is in (None, empty string, empty list) exactly when it is None. -/
def fillScore (b p : Option ℚ) : Option ℚ :=
  if b.isNone && p.isSome then p else b

/-- Reference merge of _merge_entries: when the patch brings at least
one reference, rebuild the list from base then patch, skipping empty
strings and previously seen entries; otherwise the base list is kept
verbatim. -/
def mergeRefs (base patch : List String) : List String :=
  if patch.isEmpty then base
  else (base ++ patch).foldl
    (fun acc r => if r == "" || acc.contains r then acc else acc ++ [r]) []

/-- Embedding of _merge_entries.  The Python builds an update dictionary
and produces a copy of base with it applied; the embedding produces the
same record directly.  All fields outside the update loop (platforms,
affected, fixed_in, workaround, tags, confidence, cve_id, severity) come
from base. -/
def _merge_entries (base patch : CVEEntry) : CVEEntry :=
  { base with
    source := fillStrOpt base.source patch.source
    cvss_score := fillScore base.cvss_score patch.cvss_score
    cvss_vector := fillStrOpt base.cvss_vector patch.cvss_vector
    cwe := fillStrOpt base.cwe patch.cwe
    published := fillStrOpt base.published patch.published
    last_modified := fillStrOpt base.last_modified patch.last_modified
    advisory_url := fillStrOpt base.advisory_url patch.advisory_url
    title := fillStrReq base.title patch.title
    description := fillStrReq base.description patch.description
    references := mergeRefs base.references patch.references }

-- ---------------------------------------------------------------
-- Loading (src/services/cve_engine.py 221-248)
-- ---------------------------------------------------------------

/-- Try-except around provider.load: an exception contributes an empty
record list. -/
def providerResult (r : Except Unit (List CVEEntry)) : List CVEEntry :=
  match r with
  | Except.ok entries => entries
  | Except.error _ => []

/-- Insertion-ordered dictionary membership for the by_id dict. -/
def dictKeyMem (d : List (String × CVEEntry)) (k : String) : Bool :=
  d.any fun p => p.1 == k

/-- Insertion-ordered dictionary assignment: an existing key keeps its
position, a new key is appended, as in a Python dict. -/
def dictSet (d : List (String × CVEEntry)) (k : String) (v : CVEEntry) :
    List (String × CVEEntry) :=
  if dictKeyMem d k then d.map fun p => if p.1 == k then (k, v) else p
  else d ++ [(k, v)]

/-- Insertion-ordered dictionary lookup. -/
def dictGet (d : List (String × CVEEntry)) (k : String) : Option CVEEntry :=
  (d.find? fun p => p.1 == k).map Prod.snd

/-- Merge phase of load_all: the first provider list populates by_id
with last-write-wins; every later list is folded in entry by entry,
merging onto an existing record of the same ID and inserting otherwise.
The result is the value list of the dictionary. -/
def mergeProviderLists (loaded : List (List CVEEntry)) : List CVEEntry :=
  match loaded with
  | [] => []
  | base :: rest =>
    let d0 := base.foldl (fun d e => dictSet d e.cve_id e) []
    let d := rest.foldl
      (fun d entries =>
        entries.foldl
          (fun d patch =>
            match dictGet d patch.cve_id with
            | some b => dictSet d patch.cve_id (_merge_entries b patch)
            | none => dictSet d patch.cve_id patch) d) d0
    d.map Prod.snd

/-- Embedding of load_all over a configured provider list, with each
provider load outcome given as an Except value. -/
def load_all (provs : List (Except Unit (List CVEEntry))) : List CVEEntry :=
  mergeProviderLists (provs.map providerResult)

-- ---------------------------------------------------------------
-- Matching (src/services/cve_engine.py 253-273)
-- ---------------------------------------------------------------

/-- Severity rank used for sorting matches. -/
def severityRank (severity : String) : Nat :=
  let s := lowerStr severity
  if s = "critical" then 0
  else if s = "high" then 1
  else if s = "medium" then 2
  else if s = "low" then 3
  else 99

/-- Sort key order of engine match results: severity rank ascending,
then record ID ascending. -/
def matchKeyLE (a b : CVEEntry) : Bool :=
  severityRank a.severity < severityRank b.severity ||
  (severityRank a.severity == severityRank b.severity &&
    !(b.cve_id < a.cve_id))

/-- Stable insertion into a sorted list: the new element goes before the
first strictly larger key, after equal keys already present. -/
def insertStable (x : CVEEntry) : List CVEEntry → List CVEEntry
  | [] => [x]
  | y :: ys => if matchKeyLE x y then x :: y :: ys else y :: insertStable x ys

/-- Stable sort by the match key, modelling Python list.sort with the
severity-rank and ID key. -/
def sortMatched (l : List CVEEntry) : List CVEEntry := l.foldr insertStable []

/-- Embedding of CVEEngine.match over an explicit record set: keep the
records whose platform list matches and whose affected range contains
the version (both bounds inclusive), then sort by severity rank and ID. -/
def engine_match (cves : List CVEEntry) (platform version : String) : List CVEEntry :=
  sortMatched (cves.filter fun cve =>
    platform_matches platform cve.platforms &&
    !(compare_versions version cve.affected.min < 0) &&
    !(compare_versions version cve.affected.max > 0))

-- ---------------------------------------------------------------
-- Recommended upgrade (src/services/cve_engine.py 289-302)
-- ---------------------------------------------------------------

/-- Candidate fixed-in versions of recommended_upgrade: records whose
lowercased severity is critical or high and whose fixed_in is truthy. -/
def severeFixedCandidates (matched : List CVEEntry) : List String :=
  matched.filterMap fun cve =>
    match cve.fixed_in with
    | none => none
    | some f =>
      if (lowerStr cve.severity == "critical" || lowerStr cve.severity == "high")
          && !(f == "") then some f
      else none

/-- Embedding of recommended_upgrade: none without candidates, otherwise
the running best under compare_versions starting from the first
candidate. -/
def recommended_upgrade (matched : List CVEEntry) : Option String :=
  match severeFixedCandidates matched with
  | [] => none
  | c :: cs =>
    some (cs.foldl (fun best v => if compare_versions v best < 0 then v else best) c)

-- ---------------------------------------------------------------
-- Security score model (src/models/security_score.py)
-- ---------------------------------------------------------------

/-- Embedding of CVEScoreBreakdown. -/
structure CVEScoreBreakdown where
  cve_id : String
  cvss_score : Option ℚ
  severity : String
  base_penalty : ℚ
  modifiers_applied : List String
  modifier_value : ℚ
  final_penalty : ℚ
deriving DecidableEq

/-- Embedding of the SEVERITY_PENALTIES dictionary together with the
get default of 8 used by _calculate_cve_breakdown. -/
def SEVERITY_PENALTIES (severity : String) : ℚ :=
  if severity = "critical" then 25
  else if severity = "high" then 15
  else if severity = "medium" then 8
  else if severity = "low" then 3
  else 8

/-- Modifier constant for the exploited-in-wild tag. -/
def MODIFIER_EXPLOITED : ℚ := 1.5

/-- Modifier constant for an available patch. -/
def MODIFIER_PATCHED : ℚ := 0.7

/-- Modifier constant for an aged record. -/
def MODIFIER_AGED : ℚ := 1.2

/-- Age threshold in days for the aged modifier. -/
def AGE_THRESHOLD_DAYS : Int := 365

/-- Python round: round half to even on a rational. -/
def pyRoundQ (q : ℚ) : Int :=
  let f := ⌊q⌋
  let r := q - f
  if r < 1 / 2 then f
  else if 1 / 2 < r then f + 1
  else if f % 2 = 0 then f else f + 1

/-- Python round with 2 decimal digits on a rational. -/
def round2 (q : ℚ) : ℚ := (pyRoundQ (q * 100) : ℚ) / 100

/-- Embedding of get_score_label on an optional score. -/
def get_score_label (score : Option Int) : Option String :=
  match score with
  | none => none
  | some s =>
    some (if s ≥ 90 then "Excellent"
      else if s ≥ 70 then "Good"
      else if s ≥ 50 then "Fair"
      else if s ≥ 25 then "Poor"
      else "Critical")

-- ---------------------------------------------------------------
-- Scoring (src/services/profile_service.py 181-335)
-- ---------------------------------------------------------------

/-- Python truthiness of an optional string. -/
def truthyOptStr : Option String → Bool
  | none => false
  | some s => !(s == "")

/-- Embedding of _cve_age_days: none without a truthy published field;
otherwise the strptime plus now arithmetic of the source, abstracted as
the ageOf parameter (none models a parse failure). -/
def _cve_age_days (ageOf : String → Option Int) (cve : CVEEntry) : Option Int :=
  match cve.published with
  | none => none
  | some p => if p = "" then none else ageOf p

/-- Embedding of _calculate_cve_breakdown: base penalty from severity
(with the empty severity treated as medium), multiplicative modifiers
for exploited-in-wild, patch availability and age, and two-decimal
rounding of the reported modifier and final penalty. -/
def _calculate_cve_breakdown (ageOf : String → Option Int) (cve : CVEEntry) :
    CVEScoreBreakdown :=
  let severity := if cve.severity = "" then "medium" else lowerStr cve.severity
  let base_penalty := SEVERITY_PENALTIES severity
  let exploited := !cve.tags.isEmpty && cve.tags.contains "exploited-in-wild"
  let patched := truthyOptStr cve.fixed_in
  let aged := match _cve_age_days ageOf cve with
    | some d => decide (AGE_THRESHOLD_DAYS < d)
    | none => false
  let modifier_value :=
    (if exploited then MODIFIER_EXPLOITED else 1) *
    (if patched then MODIFIER_PATCHED else 1) *
    (if aged then MODIFIER_AGED else 1)
  let modifiers_applied :=
    (if exploited then ["exploited-in-wild"] else []) ++
    (if patched then ["patch-available"] else []) ++
    (if aged then ["aged"] else [])
  let final_penalty := base_penalty * modifier_value
  { cve_id := cve.cve_id
    cvss_score := cve.cvss_score
    severity := severity
    base_penalty := base_penalty
    modifiers_applied := modifiers_applied
    modifier_value := round2 modifier_value
    final_penalty := round2 final_penalty }

/-- Sum of reported final penalties of the breakdowns of a matched set,
as computed by calculate_all_security_scores. -/
def totalFinal (ageOf : String → Option Int) (matched : List CVEEntry) : ℚ :=
  ((matched.map (_calculate_cve_breakdown ageOf)).map
    CVEScoreBreakdown.final_penalty).sum

/-- Per-profile score of calculate_all_security_scores: 100 minus the
total final penalty, rounded, floored at zero. -/
def scoreOf (ageOf : String → Option Int) (matched : List CVEEntry) : Int :=
  max 0 (pyRoundQ (100 - totalFinal ageOf matched))

/-- Per-profile label of calculate_all_security_scores. -/
def labelOf (ageOf : String → Option Int) (matched : List CVEEntry) : Option String :=
  get_score_label (some (scoreOf ageOf matched))

-- ---------------------------------------------------------------
-- Vulnerability status (src/services/profile_service.py 78-155)
-- ---------------------------------------------------------------

/-- Embedding of _determine_status. -/
def _determine_status (max_cvss : Option ℚ) : String :=
  match max_cvss with
  | none => "clean"
  | some x =>
    if x ≥ 9 then "critical"
    else if x ≥ 7 then "high"
    else if x ≥ 4 then "medium"
    else if x > 0 then "low"
    else "clean"

/-- Maximum numeric CVSS score among matched records, as computed by the
loop of check_all_vulnerabilities. -/
def maxCvssOf (matched : List CVEEntry) : Option ℚ :=
  matched.foldl
    (fun acc cve =>
      match cve.cvss_score with
      | none => acc
      | some s =>
        match acc with
        | none => some s
        | some m => if s > m then some s else some m) none

/-- Vulnerability status of a profile that carries both a platform and a
version, following the per-profile body of check_all_vulnerabilities. -/
def profileStatus (cves : List CVEEntry) (platform version : String) : String :=
  _determine_status (maxCvssOf (engine_match cves platform version))

-- ---------------------------------------------------------------
-- Spec-side reference definitions, for refinement comparison
-- ---------------------------------------------------------------

/-- Parse of a version segment as claim C3 words it: an integer when the
segment is a nonempty run of digits, unparsable otherwise. -/
def pyIntOfDigits (seg : List Char) : Option Nat :=
  if !seg.isEmpty && seg.all Char.isDigit then some (digitsToNat seg) else none

/-- Modelled from the spec: tokenizer following claim C3 word for word,
without the dot stripping performed by the source - split the retained
digit-and-dot prefix on dots, parse each segment with unparsable or
empty segments contributing 0, right-pad with zeros to at least 3
components. -/
def specTokenize (s : String) : List Nat :=
  let v := pyStrip s.data
  let cleaned := v.takeWhile fun c => c.isDigit || c == '.'
  padTo3 ((splitOnDot cleaned).map fun seg => (pyIntOfDigits seg).getD 0)

/-- Modelled from the spec: the amended tokenizer of claim C3 - the
source strips leading and trailing dots from the retained prefix before
splitting, and an empty or all-dot prefix yields the one-component zero
tuple. -/
def specTokenizeAmended (s : String) : List Nat :=
  let v := pyStrip s.data
  if v.isEmpty then [0]
  else
    let core := stripDots (v.takeWhile fun c => c.isDigit || c == '.')
    if core.isEmpty then [0]
    else padTo3 ((splitOnDot core).map fun seg => (pyIntOfDigits seg).getD 0)

/-- Modelled from the spec: reference union of claim C4 - base followed
by patch, preserving base order, skipping duplicates and empty strings,
applied unconditionally. -/
def specRefUnion (base patch : List String) : List String :=
  (base ++ patch).foldl
    (fun acc r => if r == "" || acc.contains r then acc else acc ++ [r]) []

-- ---------------------------------------------------------------
-- Helper lemmas: sorting and membership
-- ---------------------------------------------------------------

lemma mem_insertStable (x a : CVEEntry) (l : List CVEEntry) :
    a ∈ insertStable x l ↔ a = x ∨ a ∈ l := by
  induction l with
  | nil => simp [insertStable]
  | cons y ys ih =>
    by_cases h : matchKeyLE x y = true
    · simp [insertStable, h]
    · simp [insertStable, h, ih]
      tauto

lemma mem_sortMatched (a : CVEEntry) (l : List CVEEntry) :
    a ∈ sortMatched l ↔ a ∈ l := by
  induction l with
  | nil => simp [sortMatched]
  | cons x xs ih =>
    show a ∈ insertStable x (sortMatched xs) ↔ _
    rw [mem_insertStable, ih]
    exact (List.mem_cons).symm

lemma mem_engine_match (cves : List CVEEntry) (platform version : String)
    (cve : CVEEntry) :
    cve ∈ engine_match cves platform version ↔
      cve ∈ cves ∧
      platform_matches platform cve.platforms = true ∧
      ¬ compare_versions version cve.affected.min < 0 ∧
      ¬ compare_versions version cve.affected.max > 0 := by
  unfold engine_match
  rw [mem_sortMatched, List.mem_filter]
  simp only [Bool.and_eq_true, Bool.not_eq_true', decide_eq_false_iff_not]
  tauto

-- ---------------------------------------------------------------
-- Helper lemmas: the running best of recommended_upgrade
-- ---------------------------------------------------------------

lemma foldl_best_spec (cs : List String) (c : String) :
    List.foldl (fun best v => if compare_versions v best < 0 then v else best) c cs ∈
        c :: cs ∧
      ∀ v ∈ c :: cs,
        compare_versions
          (List.foldl (fun best v => if compare_versions v best < 0 then v else best) c cs)
          v ≤ 0 := by
  induction cs generalizing c with
  | nil =>
    refine ⟨by simp, ?_⟩
    intro v hv
    rw [List.mem_singleton] at hv
    subst hv
    simp [compare_versions_self]
  | cons w ws ih =>
    by_cases hw : compare_versions w c < 0
    · obtain ⟨hmem, hle⟩ := ih w
      have hgoal :
          List.foldl (fun best v => if compare_versions v best < 0 then v else best) c
              (w :: ws) =
            List.foldl (fun best v => if compare_versions v best < 0 then v else best) w
              ws := by
        simp [List.foldl_cons, hw]
      rw [hgoal]
      refine ⟨List.mem_cons_of_mem _ hmem, ?_⟩
      intro v hv
      rcases (List.mem_cons).mp hv with h | hv2
      · subst h
        exact compare_versions_trans_nonpos _ _ _
          (hle w (List.mem_cons_self _ _)) (le_of_lt hw)
      · exact hle v hv2
    · obtain ⟨hmem, hle⟩ := ih c
      have hgoal :
          List.foldl (fun best v => if compare_versions v best < 0 then v else best) c
              (w :: ws) =
            List.foldl (fun best v => if compare_versions v best < 0 then v else best) c
              ws := by
        simp [List.foldl_cons, hw]
      rw [hgoal]
      constructor
      · rcases (List.mem_cons).mp hmem with h | h
        · rw [h]
          exact List.mem_cons_self _ _
        · exact List.mem_cons_of_mem _ (List.mem_cons_of_mem _ h)
      · intro v hv
        rcases (List.mem_cons).mp hv with h | hv2
        · rw [h]
          exact hle c (List.mem_cons_self _ _)
        · rcases (List.mem_cons).mp hv2 with h | h
          · subst h
            have hcv : compare_versions c v ≤ 0 := by
              rw [compare_versions_antisym]
              omega
            exact compare_versions_trans_nonpos _ _ _
              (hle c (List.mem_cons_self _ _)) hcv
          · exact hle v (List.mem_cons_of_mem _ h)

-- ---------------------------------------------------------------
-- Helper lemmas: maximum CVSS fold
-- ---------------------------------------------------------------

lemma maxCvss_foldl_all_none (l : List CVEEntry)
    (h : ∀ c ∈ l, c.cvss_score = none) (acc : Option ℚ) :
    List.foldl
      (fun acc cve =>
        match cve.cvss_score with
        | none => acc
        | some s =>
          match acc with
          | none => some s
          | some m => if s > m then some s else some m) acc l = acc := by
  induction l generalizing acc with
  | nil => rfl
  | cons x xs ih =>
    have hx : x.cvss_score = none := h x (List.mem_cons_self _ _)
    have hxs : ∀ c ∈ xs, c.cvss_score = none :=
      fun c hc => h c (List.mem_cons_of_mem _ hc)
    simp only [List.foldl_cons, hx]
    exact ih hxs acc

-- ---------------------------------------------------------------
-- Helper lemmas: segments produced by the tokenizer are digit runs
-- ---------------------------------------------------------------

lemma mem_of_mem_splitOnDot (l : List Char) (seg : List Char)
    (hseg : seg ∈ splitOnDot l) (c : Char) (hc : c ∈ seg) :
    c ∈ l ∧ c ≠ '.' := by
  induction l generalizing seg with
  | nil =>
    simp [splitOnDot] at hseg
    subst hseg
    simp at hc
  | cons x xs ih =>
    by_cases hx : x == '.'
    · rw [show splitOnDot (x :: xs) = [] :: splitOnDot xs from by
        simp [splitOnDot, hx]] at hseg
      rcases (List.mem_cons).mp hseg with h | h
      · subst h
        simp at hc
      · obtain ⟨hmem, hne⟩ := ih seg h hc
        exact ⟨List.mem_cons_of_mem _ hmem, hne⟩
    · rcases hrec : splitOnDot xs with _ | ⟨hh, tt⟩
      · rw [show splitOnDot (x :: xs) = [[x]] from by
          simp [splitOnDot, hx, hrec]] at hseg
        simp at hseg
        subst hseg
        simp at hc
        subst hc
        refine ⟨List.mem_cons_self _ _, ?_⟩
        simpa using hx
      · rw [show splitOnDot (x :: xs) = (x :: hh) :: tt from by
          simp [splitOnDot, hx, hrec]] at hseg
        rcases (List.mem_cons).mp hseg with h | h
        · subst h
          rcases (List.mem_cons).mp hc with h2 | h2
          · subst h2
            refine ⟨List.mem_cons_self _ _, ?_⟩
            simpa using hx
          · obtain ⟨hmem, hne⟩ := ih hh (hrec ▸ List.mem_cons_self _ _) h2
            exact ⟨List.mem_cons_of_mem _ hmem, hne⟩
        · obtain ⟨hmem, hne⟩ := ih seg (hrec ▸ List.mem_cons_of_mem _ h) hc
          exact ⟨List.mem_cons_of_mem _ hmem, hne⟩

lemma mem_of_mem_stripDots (l : List Char) (c : Char) (hc : c ∈ stripDots l) :
    c ∈ l := by
  unfold stripDots at hc
  rw [List.mem_reverse] at hc
  have h1 := (List.dropWhile_suffix (fun x => x == '.')).sublist.subset hc
  rw [List.mem_reverse] at h1
  exact (List.dropWhile_suffix (fun x => x == '.')).sublist.subset h1

/-- Each segment obtained by the tokenizer from the stripped digit-and-dot
prefix is a run of digits, so the direct digit parse and the optional parse
with default 0 agree on it. -/
lemma digitsToNat_eq_pyInt_on_seg (v : List Char)
    (seg : List Char)
    (hseg : seg ∈ splitOnDot (stripDots (v.takeWhile fun c => c.isDigit || c == '.'))) :
    digitsToNat seg = (pyIntOfDigits seg).getD 0 := by
  rcases hempty : seg with _ | ⟨c0, rest⟩
  · simp [pyIntOfDigits, digitsToNat]
  · rw [← hempty]
    have hdig : ∀ c ∈ seg, c.isDigit := by
      intro c hc
      obtain ⟨hmem, hne⟩ := mem_of_mem_splitOnDot _ seg hseg c hc
      have hmem2 := mem_of_mem_stripDots _ c hmem
      have hp := List.mem_takeWhile_imp hmem2
      simp only [Bool.or_eq_true, beq_iff_eq] at hp
      rcases hp with h | h
      · exact h
      · exact absurd h hne
    have : pyIntOfDigits seg = some (digitsToNat seg) := by
      unfold pyIntOfDigits
      rw [if_pos]
      simp only [Bool.and_eq_true, List.all_eq_true]
      exact ⟨by simp [hempty], fun c hc => hdig c hc⟩
    rw [this]
    rfl

-- ---------------------------------------------------------------
-- Helper lemmas: fill rules of the merge
-- ---------------------------------------------------------------

lemma fillStrOpt_keep (b p : Option String) (h : optStrIsEmptyPy b = false) :
    fillStrOpt b p = b := by
  simp [fillStrOpt, h]

lemma fillStrOpt_fill (b p : Option String) (hb : optStrIsEmptyPy b = true)
    (hp : optStrIsEmptyPy p = false) : fillStrOpt b p = p := by
  simp [fillStrOpt, hb, hp]

lemma fillStrReq_keep (b p : String) (h : b ≠ "") : fillStrReq b p = b := by
  simp [fillStrReq, h]

lemma fillStrReq_fill (b p : String) (hb : b = "") (hp : p ≠ "") :
    fillStrReq b p = p := by
  simp [fillStrReq, hb, hp]

lemma fillScore_keep (b p : Option ℚ) (h : b ≠ none) : fillScore b p = b := by
  rcases b with _ | q
  · exact absurd rfl h
  · simp [fillScore]

lemma fillScore_fill (b p : Option ℚ) (h : b = none) : fillScore b p = p := by
  subst h
  rcases p with _ | q <;> simp [fillScore]

-- ---------------------------------------------------------------
-- Helper lemmas: a provider contributing no records is inert
-- ---------------------------------------------------------------

lemma mergeProviderLists_middle_nil (b : List CVEEntry)
    (l1 l2 : List (List CVEEntry)) :
    mergeProviderLists (b :: (l1 ++ [] :: l2)) = mergeProviderLists (b :: (l1 ++ l2)) := by
  show (List.foldl _ (List.foldl (fun d e => dictSet d e.cve_id e) [] b)
      (l1 ++ [] :: l2)).map Prod.snd =
    (List.foldl _ (List.foldl (fun d e => dictSet d e.cve_id e) [] b)
      (l1 ++ l2)).map Prod.snd
  rw [List.foldl_append, List.foldl_append]
  rfl

-- ---------------------------------------------------------------
-- Concrete records used by counterexamples and witnesses
-- ---------------------------------------------------------------

/-- Blank record used to build concrete examples: every optional field
absent, every list empty, every curated string empty. -/
def blankEntry : CVEEntry :=
  { cve_id := "", title := "", severity := "", platforms := [],
    affected := { min := "", max := "" }, fixed_in := none, tags := [],
    description := "", workaround := none, advisory_url := none,
    confidence := "demo", source := none, cvss_score := none,
    cvss_vector := none, cwe := none, published := none,
    last_modified := none, references := [] }

/-- Single critical record with no tags, no fixed-in, no publish date. -/
def c1rec : CVEEntry :=
  { blankEntry with cve_id := "CVE-2024-0001", severity := "critical" }

/-- Base record with a duplicated reference entry. -/
def c4base : CVEEntry :=
  { blankEntry with
      cve_id := "CVE-2024-0002"
      title := "Curated"
      references := ["a", "a"] }

/-- Patch record carrying no references. -/
def c4patch : CVEEntry :=
  { blankEntry with
      cve_id := "CVE-2024-0002"
      title := "External"
      references := [] }

/-- Curated base record with title and description but no score. -/
def c4wbase : CVEEntry :=
  { blankEntry with
      cve_id := "CVE-2024-0003"
      title := "Curated title"
      description := "Curated description" }

/-- Enrichment patch carrying a score, a title and one reference. -/
def c4wpatch : CVEEntry :=
  { blankEntry with
      cve_id := "CVE-2024-0003"
      title := "External title"
      cvss_score := some (98 / 10)
      references := ["ref-nvd"] }

/-- Record with the affected range of the spec's range example. -/
def c5rec : CVEEntry :=
  { blankEntry with
      cve_id := "CVE-2024-0005"
      severity := "high"
      platforms := ["isr4451-x"]
      affected := { min := "17.3.1", max := "17.6.9" } }

/-- High-severity record fixed in 17.7.1. -/
def c6high : CVEEntry :=
  { blankEntry with
      cve_id := "CVE-2024-0006"
      severity := "high"
      fixed_in := some "17.7.1" }

/-- Critical record fixed in 17.10.1. -/
def c6crit : CVEEntry :=
  { blankEntry with
      cve_id := "CVE-2024-0007"
      severity := "critical"
      fixed_in := some "17.10.1" }

/-- Critical record tagged exploited-in-wild. -/
def c7rec : CVEEntry :=
  { blankEntry with
      cve_id := "CVE-2024-0008"
      severity := "critical"
      tags := ["exploited-in-wild"] }

/-- First of two same-ID records in one provider list. -/
def e9a : CVEEntry :=
  { blankEntry with cve_id := "CVE-2099-0001", title := "Title A" }

/-- Second of two same-ID records in one provider list. -/
def e9b : CVEEntry :=
  { blankEntry with cve_id := "CVE-2099-0001", title := "Title B" }

/-- Matching record without a numeric CVSS score. -/
def c10rec : CVEEntry :=
  { blankEntry with
      cve_id := "CVE-2024-0010"
      severity := "high"
      platforms := ["isr4451-x"]
      affected := { min := "17.0", max := "18.0" } }

-- ---------------------------------------------------------------
-- Claim C8
-- ---------------------------------------------------------------

/-- C8: compare_versions is antisymmetric and reflexively zero for every
pair of version strings, and on the degenerate pair of empty strings it
returns 0; as a total Lean function over all strings it never fails. -/
theorem C8_compare_algebra (a b : String) :
    compare_versions a b = -compare_versions b a ∧
    compare_versions a a = 0 ∧
    compare_versions "" "" = 0 :=
  ⟨compare_versions_antisym a b, compare_versions_self a, compare_versions_self ""⟩

-- ---------------------------------------------------------------
-- Claim C3
-- ---------------------------------------------------------------

/-- C3 counterexample: on the input consisting of a dot then 5 the
source tokenizer strips the leading dot and yields (5,0,0), while the
splitting rule of the claim predicts a leading zero component (0,5,0). -/
theorem C3_counterexample :
    _tokenize_version ".5" = [5, 0, 0] ∧
    specTokenize ".5" = [0, 5, 0] ∧
    ([5, 0, 0] : List Nat) ≠ [0, 5, 0] := by
  refine ⟨by decide, by decide, by decide⟩

/-- C3 amended: before splitting, the tokenizer strips leading and
trailing dots from the retained digit-and-dot prefix (so a leading dot
contributes no component), an empty or all-dot prefix yields the single
zero component, and otherwise segments parse with empty or unparsable
segments contributing 0 and the result is right-padded with zeros to at
least 3 components; the spec's concrete examples hold. -/
theorem C3_amended_tokenize (s : String) :
    _tokenize_version s = specTokenizeAmended s ∧
    _tokenize_version "17.9.3" = [17, 9, 3] ∧
    _tokenize_version "16.12" = [16, 12, 0] ∧
    _tokenize_version "17.6.3a" = _tokenize_version "17.6.3" := by
  refine ⟨?_, by decide, by decide, by decide⟩
  unfold _tokenize_version specTokenizeAmended
  by_cases h1 : (pyStrip s.data).isEmpty
  · simp only [h1, if_true]
  · by_cases h2 :
      (stripDots ((pyStrip s.data).takeWhile fun c => c.isDigit || c == '.')).isEmpty
    · simp only [h1, h2, if_true, if_false, Bool.false_eq_true]
    · simp only [h1, h2, if_false, Bool.false_eq_true]
      exact congrArg padTo3 (List.map_congr_left fun seg hseg =>
        digitsToNat_eq_pyInt_on_seg (pyStrip s.data) seg hseg)

-- ---------------------------------------------------------------
-- Claim C2
-- ---------------------------------------------------------------

/-- C2 counterexample: the normalized record-platform entry contains
ios xe as a substring, yet a query naming a concrete model does not
match - the in-list wildcard test of the source is exact list
membership, not a substring search inside entries. -/
theorem C2_counterexample :
    isSubstr iosxeChars (normalize_platform "Cisco IOS XE Software") = true ∧
    platform_matches "ISR4451-X" ["Cisco IOS XE Software"] = false := by
  refine ⟨by decide, by decide⟩

/-- C2 amended: for a query whose normalization is nonempty, matching
succeeds unconditionally when ios xe occurs as a substring of the
normalized query, or when some normalized record-platform entry is
exactly ios xe; substring occurrences inside longer entries do not
trigger the wildcard, and an empty query never matches. -/
theorem C2_amended_wildcard (q : String) (ps : List String)
    (hq : (normalize_platform q).isEmpty = false)
    (h : isSubstr iosxeChars (normalize_platform q) = true ∨
      (ps.map normalize_platform).contains iosxeChars = true) :
    platform_matches q ps = true := by
  unfold platform_matches
  rcases h with h | h
  · simp [hq, h]
  · by_cases hs : isSubstr iosxeChars (normalize_platform q) = true
    · simp [hq, hs]
    · simp at h
      simp [hq, hs]
      exact Or.inl h

/-- C2 witness: the family-name query of the spec's test matches a
model-specific record list through the wildcard. -/
theorem C2_amended_witness : platform_matches "IOS XE" ["ISR4451-X"] = true :=
  C2_amended_wildcard "IOS XE" ["ISR4451-X"] (by decide) (Or.inl (by decide))

-- ---------------------------------------------------------------
-- Claim C5
-- ---------------------------------------------------------------

/-- C5: a loaded record whose platform list matches the query is
included in the match result exactly when the version lies between the
affected bounds under compare_versions, with both bounds inclusive. -/
theorem C5_match_range_inclusive (cves : List CVEEntry) (platform version : String)
    (cve : CVEEntry) (hmem : cve ∈ cves)
    (hplat : platform_matches platform cve.platforms = true) :
    cve ∈ engine_match cves platform version ↔
      (0 ≤ compare_versions version cve.affected.min ∧
        compare_versions version cve.affected.max ≤ 0) := by
  rw [mem_engine_match]
  constructor
  · rintro ⟨-, -, h1, h2⟩
    omega
  · rintro ⟨h1, h2⟩
    exact ⟨hmem, hplat, by omega, by omega⟩

/-- C5 witness: on the affected range 17.3.1 to 17.6.9, version 17.5.0
matches and version 17.7.0 does not. -/
theorem C5_witness :
    c5rec ∈ engine_match [c5rec] "ISR4451-X" "17.5.0" ∧
    c5rec ∉ engine_match [c5rec] "ISR4451-X" "17.7.0" := by
  constructor
  · exact (C5_match_range_inclusive [c5rec] "ISR4451-X" "17.5.0" c5rec
      (by decide) (by decide)).mpr (by decide)
  · intro hmem
    have hc := (C5_match_range_inclusive [c5rec] "ISR4451-X" "17.7.0" c5rec
      (by decide) (by decide)).mp hmem
    revert hc
    decide

-- ---------------------------------------------------------------
-- Claim C6
-- ---------------------------------------------------------------

/-- C6: recommended_upgrade is absent exactly when no matched record is
critical or high with a truthy fixed-in version; any returned version is
such a fixed-in candidate that compares less than or equal to every
candidate; on the spec's two-record example the result is 17.7.1. -/
theorem C6_recommended_upgrade_min (matched : List CVEEntry) :
    (recommended_upgrade matched = none ↔ severeFixedCandidates matched = []) ∧
    (∀ r, recommended_upgrade matched = some r →
      r ∈ severeFixedCandidates matched ∧
      ∀ v ∈ severeFixedCandidates matched, compare_versions r v ≤ 0) ∧
    recommended_upgrade [c6high, c6crit] = some "17.7.1" := by
  refine ⟨?_, ?_, by decide⟩
  · unfold recommended_upgrade
    rcases h : severeFixedCandidates matched with _ | ⟨c, cs⟩
    · simp
    · simp
  · intro r hr
    unfold recommended_upgrade at hr
    rcases h : severeFixedCandidates matched with _ | ⟨c, cs⟩
    · rw [h] at hr
      exact absurd hr (by simp)
    · rw [h] at hr
      have hr2 :
          List.foldl (fun best v => if compare_versions v best < 0 then v else best) c
            cs = r := by
        simpa using hr
      obtain ⟨hmemb, hle⟩ := foldl_best_spec cs c
      rw [hr2] at hmemb hle
      exact ⟨hmemb, hle⟩

/-- C6 witness: 17.7.1 is a candidate of the two-record example and
compares at most equal to every candidate. -/
theorem C6_witness :
    "17.7.1" ∈ severeFixedCandidates [c6high, c6crit] ∧
    ∀ v ∈ severeFixedCandidates [c6high, c6crit],
      compare_versions "17.7.1" v ≤ 0 :=
  (C6_recommended_upgrade_min [c6high, c6crit]).2.1 "17.7.1" (by decide)

-- ---------------------------------------------------------------
-- Claim C4
-- ---------------------------------------------------------------

lemma mergeRefs_of_nonempty (b p : List String) (h : p ≠ []) :
    mergeRefs b p = specRefUnion b p := by
  rcases p with _ | ⟨x, xs⟩
  · exact absurd rfl h
  · rfl

lemma mergeRefs_of_empty (b p : List String) (h : p = []) :
    mergeRefs b p = b := by
  subst h
  rfl

/-- C4 counterexample: a patch without references leaves the base
reference list verbatim, so the merged list keeps a duplicate that the
claimed unconditional union would have skipped. -/
theorem C4_counterexample :
    (_merge_entries c4base c4patch).references = ["a", "a"] ∧
    specRefUnion c4base.references c4patch.references = ["a"] ∧
    (["a", "a"] : List String) ≠ ["a"] := by
  refine ⟨by decide, by decide, by decide⟩

/-- C4 amended: each metadata field (title, description, provenance,
advisory URL, vector, classifier, publish and modify timestamps, numeric
score) is taken from the patch only when the base value is absent or
empty and is never overwritten otherwise; the merged reference list is
the duplicate-skipping, empty-skipping union of base then patch whenever
the patch carries at least one reference, and is the base list kept
verbatim when the patch carries none. -/
theorem C4_amended_merge (base patch : CVEEntry) :
    (base.title ≠ "" → (_merge_entries base patch).title = base.title) ∧
    (base.title = "" → patch.title ≠ "" →
      (_merge_entries base patch).title = patch.title) ∧
    (base.description ≠ "" →
      (_merge_entries base patch).description = base.description) ∧
    (base.description = "" → patch.description ≠ "" →
      (_merge_entries base patch).description = patch.description) ∧
    (optStrIsEmptyPy base.source = false →
      (_merge_entries base patch).source = base.source) ∧
    (optStrIsEmptyPy base.source = true → optStrIsEmptyPy patch.source = false →
      (_merge_entries base patch).source = patch.source) ∧
    (optStrIsEmptyPy base.advisory_url = false →
      (_merge_entries base patch).advisory_url = base.advisory_url) ∧
    (optStrIsEmptyPy base.advisory_url = true →
        optStrIsEmptyPy patch.advisory_url = false →
      (_merge_entries base patch).advisory_url = patch.advisory_url) ∧
    (optStrIsEmptyPy base.cvss_vector = false →
      (_merge_entries base patch).cvss_vector = base.cvss_vector) ∧
    (optStrIsEmptyPy base.cvss_vector = true →
        optStrIsEmptyPy patch.cvss_vector = false →
      (_merge_entries base patch).cvss_vector = patch.cvss_vector) ∧
    (optStrIsEmptyPy base.cwe = false →
      (_merge_entries base patch).cwe = base.cwe) ∧
    (optStrIsEmptyPy base.cwe = true → optStrIsEmptyPy patch.cwe = false →
      (_merge_entries base patch).cwe = patch.cwe) ∧
    (optStrIsEmptyPy base.published = false →
      (_merge_entries base patch).published = base.published) ∧
    (optStrIsEmptyPy base.published = true →
        optStrIsEmptyPy patch.published = false →
      (_merge_entries base patch).published = patch.published) ∧
    (optStrIsEmptyPy base.last_modified = false →
      (_merge_entries base patch).last_modified = base.last_modified) ∧
    (optStrIsEmptyPy base.last_modified = true →
        optStrIsEmptyPy patch.last_modified = false →
      (_merge_entries base patch).last_modified = patch.last_modified) ∧
    (base.cvss_score ≠ none →
      (_merge_entries base patch).cvss_score = base.cvss_score) ∧
    (base.cvss_score = none →
      (_merge_entries base patch).cvss_score = patch.cvss_score) ∧
    (patch.references ≠ [] →
      (_merge_entries base patch).references =
        specRefUnion base.references patch.references) ∧
    (patch.references = [] →
      (_merge_entries base patch).references = base.references) := by
  refine ⟨fun h => fillStrReq_keep _ _ h,
    fun hb hp => fillStrReq_fill _ _ hb hp,
    fun h => fillStrReq_keep _ _ h,
    fun hb hp => fillStrReq_fill _ _ hb hp,
    fun h => fillStrOpt_keep _ _ h,
    fun hb hp => fillStrOpt_fill _ _ hb hp,
    fun h => fillStrOpt_keep _ _ h,
    fun hb hp => fillStrOpt_fill _ _ hb hp,
    fun h => fillStrOpt_keep _ _ h,
    fun hb hp => fillStrOpt_fill _ _ hb hp,
    fun h => fillStrOpt_keep _ _ h,
    fun hb hp => fillStrOpt_fill _ _ hb hp,
    fun h => fillStrOpt_keep _ _ h,
    fun hb hp => fillStrOpt_fill _ _ hb hp,
    fun h => fillStrOpt_keep _ _ h,
    fun hb hp => fillStrOpt_fill _ _ hb hp,
    fun h => fillScore_keep _ _ h,
    fun h => fillScore_fill _ _ h,
    fun h => mergeRefs_of_nonempty _ _ h,
    fun h => mergeRefs_of_empty _ _ h⟩

/-- C4 witness: merging a score-only patch onto a curated base keeps the
curated title, fills the empty score, and unions the references. -/
theorem C4_amended_witness :
    (_merge_entries c4wbase c4wpatch).title = c4wbase.title ∧
    (_merge_entries c4wbase c4wpatch).cvss_score = c4wpatch.cvss_score ∧
    (_merge_entries c4wbase c4wpatch).references =
      specRefUnion c4wbase.references c4wpatch.references := by
  obtain ⟨ht, -, -, -, -, -, -, -, -, -, -, -, -, -, -, -, -, hsc, hrefs, -⟩ :=
    C4_amended_merge c4wbase c4wpatch
  exact ⟨ht (by decide), hsc (by decide), hrefs (by decide)⟩

-- ---------------------------------------------------------------
-- Claim C9
-- ---------------------------------------------------------------

/-- C9 counterexample: when the base provider raises and the next
provider carries two records with the same ID, the failed load inserts
the first record and merges the second into it, while the load over the
remaining providers alone makes that provider the base, where the later
record wins; the two results differ. -/
theorem C9_counterexample :
    load_all [Except.error (), Except.ok [e9a, e9b]] = [e9a] ∧
    load_all [Except.ok [e9a, e9b]] = [e9b] ∧
    e9a ≠ e9b := by
  refine ⟨by decide, by decide, by decide⟩

/-- C9 amended: a raising provider is replaced by an empty contribution
and the load always completes; whenever the raising provider is not the
first, the merged record set equals the one obtained from the remaining
providers (the first position is special: a failed base makes the next
provider an enricher rather than a base, which can differ on duplicate
IDs within that provider). -/
theorem C9_amended_provider_failure (p : Except Unit (List CVEEntry))
    (ptl post : List (Except Unit (List CVEEntry))) :
    load_all (p :: ptl ++ Except.error () :: post) =
      load_all (p :: ptl ++ post) := by
  unfold load_all
  simp only [List.map_cons, List.map_append]
  show mergeProviderLists (providerResult p ::
    (ptl.map providerResult ++ providerResult (Except.error ()) :: post.map providerResult)) = _
  exact mergeProviderLists_middle_nil (providerResult p)
    (ptl.map providerResult) (post.map providerResult)

-- ---------------------------------------------------------------
-- Claim C1
-- ---------------------------------------------------------------

/-- Evaluation of the scorer on a profile with a single critical record
carrying no tags, no fixed-in version and no publish date. -/
lemma single_critical_eval (ageOf : String → Option Int) (cve : CVEEntry)
    (hsev : lowerStr cve.severity = "critical")
    (htags : cve.tags = [])
    (hfix : cve.fixed_in = none)
    (hpub : cve.published = none) :
    (_calculate_cve_breakdown ageOf cve).final_penalty = 25 ∧
    scoreOf ageOf [cve] = 75 ∧
    labelOf ageOf [cve] = some "Good" := by
  have hs : ¬ cve.severity = "" := by
    intro h
    rw [h] at hsev
    exact absurd hsev (by decide)
  have hbd : (_calculate_cve_breakdown ageOf cve).final_penalty = 25 := by
    unfold _calculate_cve_breakdown
    simp only [hs, if_false, hsev, htags, hfix, hpub, _cve_age_days, truthyOptStr,
      List.isEmpty_nil, Bool.not_true, Bool.false_and, if_neg, SEVERITY_PENALTIES]
    norm_num [round2, pyRoundQ]
  have hts : totalFinal ageOf [cve] = 25 := by
    simp [totalFinal, hbd]
  refine ⟨hbd, ?_, ?_⟩
  · unfold scoreOf
    rw [hts]
    norm_num [pyRoundQ]
  · unfold labelOf scoreOf
    rw [hts]
    norm_num [pyRoundQ, get_score_label]

/-- C1 counterexample: the one-critical profile of the claim scores 75,
and get_score_label places 75 in the Good bucket (at least 70), not in
the Fair bucket named by the claim. -/
theorem C1_counterexample :
    scoreOf (fun _ => none) [c1rec] = 75 ∧
    labelOf (fun _ => none) [c1rec] = some "Good" ∧
    (some "Good" : Option String) ≠ some "Fair" := by
  obtain ⟨-, h2, h3⟩ := single_critical_eval (fun _ => none) c1rec
    (by decide) (by decide) (by decide) (by decide)
  exact ⟨h2, h3, by decide⟩

/-- C1 amended: for any evaluation-time age assignment, a profile with
exactly one matched record of critical severity, no tags, no fixed-in
version and no publish date gets final penalty 25, profile score 75 and
label Good. -/
theorem C1_amended_single_critical (ageOf : String → Option Int) (cve : CVEEntry)
    (hsev : lowerStr cve.severity = "critical")
    (htags : cve.tags = [])
    (hfix : cve.fixed_in = none)
    (hpub : cve.published = none) :
    (_calculate_cve_breakdown ageOf cve).final_penalty = 25 ∧
    scoreOf ageOf [cve] = 75 ∧
    labelOf ageOf [cve] = some "Good" :=
  single_critical_eval ageOf cve hsev htags hfix hpub

/-- C1 witness: the concrete single-critical record evaluates as the
amended claim states. -/
theorem C1_amended_witness :
    (_calculate_cve_breakdown (fun _ => none) c1rec).final_penalty = 25 ∧
    scoreOf (fun _ => none) [c1rec] = 75 ∧
    labelOf (fun _ => none) [c1rec] = some "Good" :=
  C1_amended_single_critical (fun _ => none) c1rec (by decide) (by decide)
    (by decide) (by decide)

-- ---------------------------------------------------------------
-- Claim C7
-- ---------------------------------------------------------------

/-- Evaluation of the breakdown of the exploited critical record: base
25 with the 1.5 modifier gives a final penalty of 37.5. -/
lemma c7_breakdown_eval :
    (_calculate_cve_breakdown (fun _ => none) c7rec).final_penalty = 37.5 := by
  have hsev : (if c7rec.severity = "" then "medium" else lowerStr c7rec.severity) =
      "critical" := by decide
  have hexp : (!c7rec.tags.isEmpty && c7rec.tags.contains "exploited-in-wild") =
      true := by decide
  have hfix : truthyOptStr c7rec.fixed_in = false := by decide
  have hage : _cve_age_days (fun _ => (none : Option Int)) c7rec = none := by decide
  unfold _calculate_cve_breakdown
  rw [hsev, hexp, hfix, hage]
  norm_num [SEVERITY_PENALTIES, MODIFIER_EXPLOITED, round2, pyRoundQ]

/-- Evaluation of the total penalty of five exploited critical records. -/
lemma c7_total_eval :
    totalFinal (fun _ => none) (List.replicate 5 c7rec) = 187.5 := by
  simp only [totalFinal, List.map_replicate, List.sum_replicate, c7_breakdown_eval]
  norm_num

/-- Evaluation of the floored score of five exploited critical records. -/
lemma c7_score_eval :
    scoreOf (fun _ => none) (List.replicate 5 c7rec) = 0 := by
  unfold scoreOf
  rw [c7_total_eval]
  have hround : pyRoundQ ((100 : ℚ) - 187.5) = -88 := by
    norm_num [pyRoundQ]
  rw [hround]
  decide

/-- C7: the profile score is the zero-floored rounding of 100 minus the
summed final penalties and is never negative; five critical records each
tagged exploited-in-wild (final penalty 37.5 each, 187.5 in total) give
score 0 and label Critical. -/
theorem C7_score_floor (ageOf : String → Option Int) (matched : List CVEEntry) :
    scoreOf ageOf matched = max 0 (pyRoundQ (100 - totalFinal ageOf matched)) ∧
    0 ≤ scoreOf ageOf matched ∧
    (_calculate_cve_breakdown (fun _ => none) c7rec).final_penalty = 37.5 ∧
    scoreOf (fun _ => none) (List.replicate 5 c7rec) = 0 ∧
    labelOf (fun _ => none) (List.replicate 5 c7rec) = some "Critical" := by
  refine ⟨rfl, le_max_left 0 _, c7_breakdown_eval, c7_score_eval, ?_⟩
  unfold labelOf
  rw [c7_score_eval]
  decide

-- ---------------------------------------------------------------
-- Claim C10
-- ---------------------------------------------------------------

/-- C10: for a profile carrying both platform and version, the
vulnerability status is clean whenever no matched record carries a
numeric CVSS score, and the status computation never yields unknown. -/
theorem C10_clean_without_scores (cves : List CVEEntry) (platform version : String)
    (h : ∀ cve ∈ engine_match cves platform version, cve.cvss_score = none) :
    profileStatus cves platform version = "clean" ∧
    ∀ o : Option ℚ, _determine_status o ≠ "unknown" := by
  constructor
  · have hmax : maxCvssOf (engine_match cves platform version) = none := by
      unfold maxCvssOf
      exact maxCvss_foldl_all_none _ h none
    unfold profileStatus
    rw [hmax]
    rfl
  · intro o
    rcases o with _ | x
    · decide
    · simp only [_determine_status]
      split_ifs <;> decide

/-- C10 witness: a profile with platform and version and one matched
scoreless record is classified clean despite having a vulnerability. -/
theorem C10_witness :
    engine_match [c10rec] "ISR4451-X" "17.5.1" ≠ [] ∧
    profileStatus [c10rec] "ISR4451-X" "17.5.1" = "clean" :=
  ⟨by decide,
    (C10_clean_without_scores [c10rec] "ISR4451-X" "17.5.1" (by decide)).1⟩
